import Mathlib

/-!
Verification of the stock-assistant repository.

This file gives a shallow embedding, in Lean, of the pieces of the
repository that the specification talks about:

* `backend/agent.py` — the LangGraph routing function `should_continue`
  and the history-trimming wrapper `trim_message_history`;
* `backend/tools.py` — the client registry (`get_company_client`), the
  output truncator (`truncate_tool_output`), the period-correction tool
  (`correct_period_parameter`), the data tools (`get_company_info`,
  `get_stock_history`, `get_financial_statements`), and the
  post-extraction resolution logic of `extract_stock_mentions`;
* `backend.py` — the data client `CompanyData` with its retry wrapper
  `safe_get` and the accessors `get_info` / `get_financials` /
  `get_ticker_data`.

External services (the LLM, the tokenizer, the yfinance upstream) are
modelled as explicit function parameters, so each theorem quantifies over
every possible behaviour of those services.  Python exceptions are
modelled with `Except String`; a Python value that may be `None` is
modelled with `Option`.
-/

namespace StockAssistant

/-! ## Messages (langchain `BaseMessage` as used by `backend/agent.py`)

A message carries a role tag (`type` in langchain: "system", "human",
"ai", "tool"), the number of attached tool-call requests (only AI
messages have a `tool_calls` attribute), and a token size used by the
trimming policy. -/

inductive Role
  | system
  | human
  | ai
  | tool
deriving DecidableEq, Repr

structure Msg where
  role : Role
  toolCalls : Nat
  tokens : Nat
deriving DecidableEq, Repr

/-- In langchain only `AIMessage` defines the `tool_calls` attribute, so
`hasattr(m, "tool_calls")` holds exactly for AI messages. -/
def hasToolCallsAttr (m : Msg) : Bool := m.role == Role.ai

/-- From `backend/agent.py` (`should_continue`): `llm_calls = sum(1 for m in
messages if hasattr(m, "type") and m.type == "ai")`.  Every langchain
message has `type`, so this counts the AI messages. -/
def llm_calls (messages : List Msg) : Nat :=
  (messages.filter (fun m => m.role == Role.ai)).length

/-- From `backend/agent.py` (`should_continue`): `total_tool_calls =
sum(len(m.tool_calls) for m in messages if hasattr(m, "tool_calls") and
m.tool_calls)`. -/
def total_tool_calls (messages : List Msg) : Nat :=
  ((messages.filter (fun m => hasToolCallsAttr m && m.toolCalls != 0)).map
    (fun m => m.toolCalls)).sum

/-- Embeds `backend/agent.py::should_continue`.  `messages[-1]` on an empty
history raises `IndexError`, modelled as `none`; otherwise the function
returns one of the route labels "fallback", "tools", "end". -/
def should_continue (messages : List Msg) : Option String :=
  match messages.getLast? with
  | Option.none => Option.none
  | Option.some last_message =>
    if llm_calls messages ≥ 20 then
      Option.some "fallback"
    else if hasToolCallsAttr last_message && last_message.toolCalls != 0 then
      if total_tool_calls messages ≥ 50 then
        Option.some "fallback"
      else
        Option.some "tools"
    else
      Option.some "end"

/-! ## Python values and the data client (`backend.py`)

A yfinance attribute value is `None`, a dict, or a DataFrame; exceptions
carry their `str(e)` message.  The upstream provider is modelled as a
function from the attempt index to that attempt's outcome. -/

inductive PyVal
  | pynone
  | pydict (entries : List (String × String))
  | pyframe (rows : List String)
deriving DecidableEq, Repr

/-- From `backend.py::safe_get`: `data is None or (isinstance(data, dict) and
not data)` — `None` and the empty dict count as an empty response. -/
def isEmptyResp : PyVal → Bool
  | PyVal.pynone => true
  | PyVal.pydict [] => true
  | _ => false

/-- Substring containment on char lists, modelling Python's `in` on
strings. -/
def listContains (needle : List Char) : List Char → Bool
  | [] => needle.isPrefixOf []
  | c :: cs => needle.isPrefixOf (c :: cs) || listContains needle cs

def strContains (hay needle : String) : Bool :=
  listContains needle.toList hay.toList

/-- From `backend.py::safe_get`: `"429" in str(e) or "Too Many Requests" in
str(e)` classifies an error as upstream rate limiting. -/
def isRateLimit (msg : String) : Bool :=
  strContains msg "429" || strContains msg "Too Many Requests"

/-- The retry loop of `backend.py::safe_get`, one recursive step per loop
iteration (`for i in range(max_retries)`).  An attempt whose data is empty
raises `ValueError("Empty response from Yahoo")` inside the `try`; any
caught error that is rate-limit-classified lets the loop continue, any
other caught error `break`s; falling off the loop returns `None`. -/
def safe_getAux (fetch : Nat → Except String PyVal) : Nat → Nat → Option PyVal
  | _, 0 => Option.none
  | i, fuel + 1 =>
    let attempt : Except String PyVal :=
      match fetch i with
      | Except.ok data =>
          if isEmptyResp data then Except.error "Empty response from Yahoo"
          else Except.ok data
      | Except.error e => Except.error e
    match attempt with
    | Except.ok data => Option.some data
    | Except.error e =>
        if isRateLimit e then safe_getAux fetch (i + 1) fuel else Option.none

/-- Embeds `backend.py::CompanyData.safe_get` with `max_retries` attempts. -/
def safe_get (fetch : Nat → Except String PyVal) (max_retries : Nat) : Option PyVal :=
  safe_getAux fetch 0 max_retries

/-- Embeds `backend.py::CompanyData.get_financials`: `safe_get(..., 'financials',
max_retries=3)` passed through unchanged (possibly `None`). -/
def CompanyData.get_financials (fetch : Nat → Except String PyVal) : Option PyVal :=
  safe_get fetch 3

/-- Embeds `pd.DataFrame.from_dict(info, orient='index', columns=['Value'])`:
raises a `TypeError` when `info` is `None`, otherwise builds a frame. -/
def pd_DataFrame_from_dict : Option PyVal → Except String PyVal
  | Option.none => Except.error "TypeError: object of type NoneType has no len()"
  | Option.some (PyVal.pydict entries) =>
      Except.ok (PyVal.pyframe (entries.map (fun p => p.1 ++ "  " ++ p.2)))
  | Option.some v => Except.ok v

/-- Embeds `backend.py::CompanyData.get_info`: feeds the `safe_get` result
straight into `pd.DataFrame.from_dict`, raising when it is `None`. -/
def CompanyData.get_info (fetch : Nat → Except String PyVal) : Except String PyVal :=
  pd_DataFrame_from_dict (safe_get fetch 3)

/-- Embeds `backend.py::CompanyData.get_ticker_data`: probes the `history`
attribute via `safe_get`; on success returns the freshly fetched history
frame, on `None` prints a diagnostic and returns an empty DataFrame. -/
def CompanyData.get_ticker_data (fetch : Nat → Except String PyVal)
    (history : PyVal) : PyVal :=
  match safe_get fetch 3 with
  | Option.some _ => history
  | Option.none => PyVal.pyframe []

/-- Rendering a Python value to text, `repr`/`to_string`-style; total on
actual values. -/
def render : PyVal → String
  | PyVal.pynone => "None"
  | PyVal.pydict es => String.intercalate ", " (es.map (fun p => p.1 ++ ": " ++ p.2))
  | PyVal.pyframe rows => String.intercalate "\n" rows

/-- Embeds `x.to_string()` on a possibly-`None` value: `None.to_string()` raises
`AttributeError`. -/
def py_to_string : Option PyVal → Except String String
  | Option.none =>
      Except.error "AttributeError: NoneType object has no attribute to_string"
  | Option.some v => Except.ok (render v)

/-- Embeds `df.tail(n)`: the last `n` rows of a frame. -/
def frame_tail (n : Nat) : PyVal → PyVal
  | PyVal.pyframe rows => PyVal.pyframe (rows.drop (rows.length - n))
  | v => v

/-! ## Tool layer (`backend/tools.py`)

The tiktoken encoder is an external service, modelled by a pair of
functions `encode`/`decode` the definitions are parameterised over. -/

/-- Embeds `backend/tools.py::truncate_tool_output`.  Note that the marker is
built after `tokens` has been reassigned to the truncated list, so
`len(tokens)` in the f-string is the truncated length. -/
def truncate_tool_output (encode : String → List Nat) (decode : List Nat → String)
    (text : String) (max_tokens : Nat) : String :=
  let tokens := encode text
  if max_tokens < tokens.length then
    let tokens2 := tokens.take max_tokens
    decode tokens2 ++ "\n... [output truncated from " ++ toString tokens2.length ++
      " to " ++ toString max_tokens ++ " tokens]"
  else text

/-- Embeds `backend/tools.py::get_company_info`:
`truncate_tool_output(client.get_info().to_string(), 5000)`; an exception
from `get_info` propagates. -/
def get_company_info (encode : String → List Nat) (decode : List Nat → String)
    (fetch : Nat → Except String PyVal) : Except String String :=
  match CompanyData.get_info fetch with
  | Except.ok v => Except.ok (truncate_tool_output encode decode (render v) 5000)
  | Except.error e => Except.error e

/-- Embeds `backend/tools.py::get_financial_statements`:
`truncate_tool_output(client.get_financials().to_string(), 5000)`; when
`get_financials` returns `None`, `.to_string()` raises. -/
def get_financial_statements (encode : String → List Nat) (decode : List Nat → String)
    (fetch : Nat → Except String PyVal) : Except String String :=
  match py_to_string (CompanyData.get_financials fetch) with
  | Except.ok s => Except.ok (truncate_tool_output encode decode s 5000)
  | Except.error e => Except.error e

/-- Embeds `backend/tools.py::get_stock_history`:
`truncate_tool_output(client.get_ticker_data(...).tail(10).to_string(), 5000)`;
`get_ticker_data` never returns `None`, so this never raises. -/
def get_stock_history (encode : String → List Nat) (decode : List Nat → String)
    (fetch : Nat → Except String PyVal) (history : PyVal) : Except String String :=
  Except.ok (truncate_tool_output encode decode
    (render (frame_tail 10 (CompanyData.get_ticker_data fetch history))) 5000)

/-- A concrete one-token-per-character tokenizer used to instantiate the
abstract encoder in closed evaluations. -/
def charEncode (s : String) : List Nat := s.toList.map Char.toNat

def charDecode (l : List Nat) : String := String.mk (l.map Char.ofNat)

/-- An upstream that yields an empty mapping on the first attempt and a
successful non-empty mapping on every later attempt. -/
def emptyThenOk : Nat → Except String PyVal := fun i =>
  if i = 0 then Except.ok (PyVal.pydict []) else Except.ok (PyVal.pydict [("a", "1")])

/-- An upstream that is rate-limited on attempts 1 and 2 and succeeds on
attempt 3. -/
def rlFetch : Nat → Except String PyVal := fun i =>
  if i < 2 then Except.error "429 Too Many Requests" else Except.ok (PyVal.pydict [("p", "1")])

/-- An attempt outcome that `safe_get` counts as a failure: an exception,
or a `None`/empty-mapping response. -/
def attemptFails : Except String PyVal → Bool
  | Except.error _ => true
  | Except.ok d => isEmptyResp d

/-! ## Python dict lookup and string methods

`d[k]` / `k in d` on a Python dict, modelled over an association list;
`str.upper()`, `str.lower()` and `str.strip()` modelled characterwise. -/

def lookupKey {α : Type} : List (String × α) → String → Option α
  | [], _ => Option.none
  | p :: ps, k => if p.1 = k then Option.some p.2 else lookupKey ps k

def pyUpper (s : String) : String := String.mk (s.toList.map Char.toUpper)

def pyLower (s : String) : String := String.mk (s.toList.map Char.toLower)

def pyStrip (s : String) : String :=
  String.mk (((s.toList.dropWhile Char.isWhitespace).reverse.dropWhile
    Char.isWhitespace).reverse)

/-! ## Period correction (`backend/tools.py::correct_period_parameter`)

The LLM fallback is an external service; its (stripped-before-use raw)
answer is the extra parameter `llmAnswer`. -/

def period_mapping : List (String × String) :=
  [("1w", "5d"), ("2w", "1mo"), ("3w", "1mo"), ("4w", "1mo"),
   ("week", "5d"), ("month", "1mo"), ("year", "1y"), ("3m", "3mo"),
   ("6m", "6mo"), ("2y", "2y"), ("5y", "5y"), ("10y", "10y")]

def valid_periods : List String :=
  ["1d", "5d", "1mo", "3mo", "6mo", "1y", "2y", "5y", "10y", "ytd", "max"]

/-- Embeds `backend/tools.py::correct_period_parameter`: alias table on
`invalid_period.lower().strip()`, then the model's answer (stripped)
validated against `valid_periods`, then the `'1mo'` default. -/
def correct_period_parameter (invalid_period : String) (llmAnswer : String) : String :=
  match lookupKey period_mapping (pyStrip (pyLower invalid_period)) with
  | Option.some v => v
  | Option.none =>
      if pyStrip llmAnswer ∈ valid_periods then pyStrip llmAnswer else "1mo"

/-! ## Client registry (`backend/tools.py::_company_cache`)

Client identity is modelled by a numeric handle; a fresh construction
gets a handle never used before (the current cache size). -/

structure Registry where
  entries : List (String × Nat)
deriving DecidableEq, Repr

def Registry.keys (r : Registry) : List String := r.entries.map Prod.fst

/-- Embeds `backend/tools.py::get_company_client`: uppercase the ticker, reuse
the cached client if present, otherwise construct, cache and return a
fresh one. -/
def get_company_client (r : Registry) (ticker : String) : Nat × Registry :=
  match lookupKey r.entries (pyUpper ticker) with
  | Option.some c => (c, r)
  | Option.none =>
      (r.entries.length, ⟨r.entries ++ [(pyUpper ticker, r.entries.length)]⟩)

/-- A sequence of `get_company_client` requests threaded through the
registry state. -/
def runRequests (r : Registry) : List String → Registry
  | [] => r
  | t :: ts => runRequests (get_company_client r t).2 ts

/-! ## Context-window trimming (`backend/agent.py::trim_message_history`) -/

def totalTokens (l : List Msg) : Nat := (l.map Msg.tokens).sum

def isSystem (m : Msg) : Bool := m.role == Role.system

def isHuman (m : Msg) : Bool := m.role == Role.human

/-- The longest suffix of the non-system history that begins on a human
message and fits, together with the retained system messages, inside the
budget; `[]` when no such suffix exists. -/
def pickWindow (sysTokens budget : Nat) : List Msg → List Msg
  | [] => []
  | m :: ms =>
    if isHuman m = true ∧ sysTokens + totalTokens (m :: ms) ≤ budget then m :: ms
    else pickWindow sysTokens budget ms

/-- The suffix starting at the last human message; `[]` when no human
message exists. -/
def lastHumanSuffix : List Msg → List Msg
  | [] => []
  | m :: ms =>
    if (lastHumanSuffix ms).isEmpty then
      (if isHuman m then m :: ms else [])
    else lastHumanSuffix ms

/-- Modelled from the spec: `langchain_core.messages.trim_messages` (an
external library dependency, not part of the repository source) as
configured by `trim_message_history` — `strategy="last"`,
`include_system=True`, `allow_partial=False`, `start_on="human"`.  The
spec's policy: a history within budget is untouched; otherwise keep every
system message, keep the most recent messages without splitting any, start
the retained window on a human-authored message, and always retain the
latest human message even when the budget is smaller than the combined
size (the one allowed budget violation). -/
def trim_messages (l : List Msg) (budget : Nat) : List Msg :=
  if totalTokens l ≤ budget then l
  else
    l.filter isSystem ++
      (if (pickWindow (totalTokens (l.filter isSystem)) budget
            (l.filter (fun m => ! isSystem m))).isEmpty = true then
        lastHumanSuffix (l.filter (fun m => ! isSystem m))
      else
        pickWindow (totalTokens (l.filter isSystem)) budget
          (l.filter (fun m => ! isSystem m)))

/-- Embeds `backend/agent.py::trim_message_history`: delegates to
`trim_messages` (and prints a diagnostic when messages were dropped). -/
def trim_message_history (l : List Msg) (budget : Nat) : List Msg :=
  trim_messages l budget

/-- The latest human-authored message of a history, when one exists. -/
def lastHuman? (l : List Msg) : Option Msg := (l.filter isHuman).getLast?

/-! ## Entity extraction (`backend/tools.py::extract_stock_mentions`)

The structured-output model call is external: its answer is the pair of
lists `symbols`/`companies`.  `CompanyData.search_stock_symbol` lives in
`backend/stock_fetcher.py`; per the repository's use it returns a mapping
with `found`, `symbol` and `name` keys, modelled as the parameter
`search`.  The resolution loops that follow the model call are taken
verbatim from `extract_stock_mentions`; `.upper()` on a `None` symbol
raises `AttributeError`, modelled in `Except`. -/

structure SearchResult where
  found : Bool
  symbol : Option String
  name : String
deriving DecidableEq, Repr

structure ResolvedRecord where
  symbol : Option String
  name : Option String
  source : String
deriving DecidableEq, Repr

/-- Embeds `x.upper()` on a possibly-`None` value. -/
def pyUpperOpt : Option String → Except String String
  | Option.none => Except.error "AttributeError: NoneType object has no attribute upper"
  | Option.some s => Except.ok (pyUpper s)

/-- Embeds `any(r["symbol"].upper() == company.upper() for r in resolved)` — the
generator is evaluated left to right and raises at the first record whose
symbol is `None`. -/
def anyFound (resolved : List ResolvedRecord) (company : String) : Except String Bool :=
  match resolved with
  | [] => Except.ok false
  | r :: rs =>
    match pyUpperOpt r.symbol with
    | Except.error e => Except.error e
    | Except.ok u =>
        if u = pyUpper company then Except.ok true else anyFound rs company

/-- The `for company in result.companies` loop of
`extract_stock_mentions`, threading the `resolved` accumulator. -/
def resolveCompanies (search : String → SearchResult) :
    List ResolvedRecord → List String → Except String (List ResolvedRecord)
  | resolved, [] => Except.ok resolved
  | resolved, company :: rest =>
    match anyFound resolved company with
    | Except.error e => Except.error e
    | Except.ok true => resolveCompanies search resolved rest
    | Except.ok false =>
        if (search company).found then
          resolveCompanies search
            (resolved ++ [⟨(search company).symbol,
              Option.some (search company).name, "company_name_searched"⟩]) rest
        else
          resolveCompanies search
            (resolved ++ [⟨Option.none, Option.some company,
              "company_name_searched"⟩]) rest

/-- The resolution phase of `backend/tools.py::extract_stock_mentions`:
ticker symbols become records as-is, company names are searched, and the
result list is capped at 20 entries. -/
def extract_stock_mentions_resolve (symbols companies : List String)
    (search : String → SearchResult) : Except String (List ResolvedRecord) :=
  match resolveCompanies search
      (symbols.map (fun s =>
        (⟨Option.some s, Option.none, "ticker_mentioned"⟩ : ResolvedRecord)))
      companies with
  | Except.error e => Except.error e
  | Except.ok resolved =>
      Except.ok (if 20 < resolved.length then resolved.take 20 else resolved)

lemma llm_calls_pos_ne_nil {messages : List Msg} (h : 0 < llm_calls messages) :
    messages ≠ [] := by
  intro hnil
  subst hnil
  simp [llm_calls] at h

end StockAssistant

namespace StockAssistant

/-- C1: whenever at least 20 AI messages are in the history, the router
returns "fallback", whatever the last message is. -/
theorem should_continue_fallback_at_cap (messages : List Msg)
    (h : 20 ≤ llm_calls messages) :
    should_continue messages = Option.some "fallback" := by
  have hne : messages ≠ [] := llm_calls_pos_ne_nil (by omega)
  obtain ⟨last, hlast⟩ := Option.isSome_iff_exists.mp
    ((List.getLast?_isSome (l := messages)).mpr hne)
  unfold should_continue
  rw [hlast]
  simp [ge_iff_le, h]

/-- Witness for C1: a history of 20 AI messages routed to "fallback". -/
theorem should_continue_fallback_at_cap_witness :
    20 ≤ llm_calls (List.replicate 20 ⟨Role.ai, 0, 5⟩) ∧
      should_continue (List.replicate 20 ⟨Role.ai, 0, 5⟩) = Option.some "fallback" :=
  ⟨by decide, should_continue_fallback_at_cap _ (by decide)⟩

/-- C2: below the 20-AI-message cap, with the latest message AI-authored:
tool calls present route to "fallback" when the cumulative tool-call count
is at least 50 and to "tools" otherwise; no tool calls route to "end". -/
theorem should_continue_below_cap (messages : List Msg) (last : Msg)
    (hlast : messages.getLast? = Option.some last)
    (hcount : llm_calls messages < 20) (hai : last.role = Role.ai) :
    (last.toolCalls ≠ 0 → 50 ≤ total_tool_calls messages →
      should_continue messages = Option.some "fallback") ∧
    (last.toolCalls ≠ 0 → total_tool_calls messages < 50 →
      should_continue messages = Option.some "tools") ∧
    (last.toolCalls = 0 → should_continue messages = Option.some "end") := by
  unfold should_continue
  rw [hlast]
  have hnc : ¬ 20 ≤ llm_calls messages := Nat.not_le.mpr hcount
  refine ⟨fun htc h50 => ?_, fun htc h50 => ?_, fun htc => ?_⟩
  · simp [hasToolCallsAttr, hai, htc, ge_iff_le, hnc, h50]
  · simp [hasToolCallsAttr, hai, htc, ge_iff_le, hnc, Nat.not_le.mpr h50]
  · simp [hasToolCallsAttr, hai, htc, ge_iff_le, hnc]

/-- Witness for C2: a two-message history (human, then AI with one tool
call) routed to "tools". -/
theorem should_continue_below_cap_witness :
    should_continue [⟨Role.human, 0, 5⟩, ⟨Role.ai, 1, 5⟩] = Option.some "tools" :=
  (should_continue_below_cap [⟨Role.human, 0, 5⟩, ⟨Role.ai, 1, 5⟩]
    ⟨Role.ai, 1, 5⟩ (by decide) (by decide) rfl).2.1 (by decide) (by decide)

/-- C3: on an upstream whose first attempt yields an empty mapping,
`safe_get` returns `None` and both `get_financial_statements`
(`None.to_string()`) and `get_info` (`pd.DataFrame.from_dict(None, ...)`)
raise instead of degrading to text. -/
theorem data_tools_raise_on_absent_data :
    get_financial_statements charEncode charDecode emptyThenOk =
      Except.error "AttributeError: NoneType object has no attribute to_string" ∧
    CompanyData.get_info emptyThenOk =
      Except.error "TypeError: object of type NoneType has no len()" := by
  exact ⟨rfl, rfl⟩

/-- C4 counterexample: an empty mapping on attempt 1 is not retried —
`safe_get` returns `None` even though attempt 2 would have succeeded with
`{"a": "1"}`. -/
theorem safe_get_empty_not_retried :
    safe_get emptyThenOk 3 = Option.none ∧
      ¬ safe_get emptyThenOk 3 = Option.some (PyVal.pydict [("a", "1")]) := by
  refine ⟨rfl, ?_⟩
  intro h
  exact Option.noConfusion (rfl.symm.trans h)

/-- C4 (amended): an attempt yielding a `None`/empty-mapping response
raises `ValueError("Empty response from Yahoo")`, whose message is not
rate-limit-classified, so `safe_get` aborts all remaining retries and
returns `None`. -/
theorem safe_get_empty_aborts (fetch : Nat → Except String PyVal)
    (i fuel : Nat) (d : PyVal) (hf : fetch i = Except.ok d)
    (he : isEmptyResp d = true) :
    safe_getAux fetch i (fuel + 1) = Option.none := by
  have hnr : isRateLimit "Empty response from Yahoo" = false := by decide
  unfold safe_getAux
  simp [hf, he, hnr]

/-- Witness for C4's amended statement at the concrete upstream
`emptyThenOk`. -/
theorem safe_get_empty_aborts_witness :
    safe_getAux emptyThenOk 0 3 = Option.none :=
  safe_get_empty_aborts emptyThenOk 0 2 (PyVal.pydict []) rfl rfl

lemma safe_getAux_all_fail (fetch : Nat → Except String PyVal)
    (h : ∀ j, attemptFails (fetch j) = true) :
    ∀ fuel i, safe_getAux fetch i fuel = Option.none := by
  intro fuel
  induction fuel with
  | zero => intro i; rfl
  | succ n ih =>
    intro i
    have hi := h i
    unfold safe_getAux
    cases hf : fetch i with
    | ok d =>
      rw [hf] at hi
      have he : isEmptyResp d = true := by simpa [attemptFails] using hi
      simp [hf, he, ih]
    | error m =>
      simp [hf, ih]

lemma safe_getAux_congr (f g : Nat → Except String PyVal) :
    ∀ fuel i, (∀ j, i ≤ j → j < i + fuel → f j = g j) →
      safe_getAux f i fuel = safe_getAux g i fuel := by
  intro fuel
  induction fuel with
  | zero => intro i _; rfl
  | succ n ih =>
    intro i h
    have hstep : ∀ j, i + 1 ≤ j → j < i + 1 + n → f j = g j :=
      fun j h1 h2 => h j (by omega) (by omega)
    unfold safe_getAux
    rw [h i (Nat.le_refl i) (by omega)]
    cases hg : g i with
    | ok d =>
      by_cases he : isEmptyResp d
      · simp [hg, he, ih (i + 1) hstep]
      · simp [hg, he]
    | error m =>
      simp [hg, ih (i + 1) hstep]

/-- C5: `safe_get` with 3 attempts (a) returns attempt 3's result when
attempts 1–2 hit rate-limit-classified errors and attempt 3 succeeds,
(b) aborts the remaining retries on any non-rate-limit error, (c) returns
`None` (it never raises — its return type is an `Option`) when every
attempt fails, and (d) never consults the upstream beyond attempt 3. -/
theorem safe_get_retry_policy (fetch : Nat → Except String PyVal) :
    ((∀ i, i < 2 → ∃ m, fetch i = Except.error m ∧ isRateLimit m = true) →
      ∀ d, fetch 2 = Except.ok d → isEmptyResp d = false →
        safe_get fetch 3 = Option.some d) ∧
    (∀ i fuel m, fetch i = Except.error m → isRateLimit m = false →
      safe_getAux fetch i (fuel + 1) = Option.none) ∧
    ((∀ j, attemptFails (fetch j) = true) → safe_get fetch 3 = Option.none) ∧
    (∀ g : Nat → Except String PyVal, (∀ i, i < 3 → fetch i = g i) →
      safe_get fetch 3 = safe_get g 3) := by
  refine ⟨?_, ?_, ?_, ?_⟩
  · intro h d h2 hne
    obtain ⟨m0, hf0, hr0⟩ := h 0 (by omega)
    obtain ⟨m1, hf1, hr1⟩ := h 1 (by omega)
    simp [safe_get, safe_getAux, hf0, hr0, hf1, hr1, h2, hne]
  · intro i fuel m hf hr
    unfold safe_getAux
    simp [hf, hr]
  · intro h
    exact safe_getAux_all_fail fetch h 3 0
  · intro g hg
    exact safe_getAux_congr fetch g 3 0 (fun j _ h2 => hg j (by omega))

/-- Witness for C5 at the concrete upstream `rlFetch` (rate-limited twice,
then successful). -/
theorem safe_get_retry_policy_witness :
    safe_get rlFetch 3 = Option.some (PyVal.pydict [("p", "1")]) :=
  (safe_get_retry_policy rlFetch).1
    (fun i hi => ⟨"429 Too Many Requests", by simp [rlFetch, hi], by decide⟩)
    (PyVal.pydict [("p", "1")]) rfl rfl

/-- C6: with a one-token-per-character tokenizer, an input of 6 tokens
truncated to budget 3 yields the first 3 tokens but a marker that reads
"truncated from 3 to 3 tokens" — the marker reports the truncated length
twice (`len(tokens)` is read after `tokens` was reassigned) and does not
state the original token count 6. -/
theorem truncate_marker_reports_truncated_length :
    truncate_tool_output charEncode charDecode "abcdef" 3 =
      "abc\n... [output truncated from 3 to 3 tokens]" ∧
    (charEncode "abcdef").length = 6 := by
  exact ⟨rfl, rfl⟩

lemma lookupKey_mem {α : Type} :
    ∀ (l : List (String × α)) (k : String) (v : α),
      lookupKey l k = Option.some v → (k, v) ∈ l := by
  intro l
  induction l with
  | nil => intro k v h; cases h
  | cons p ps ih =>
    intro k v h
    unfold lookupKey at h
    by_cases hp : p.1 = k
    · rw [if_pos hp] at h
      injection h with hv
      obtain ⟨p1, p2⟩ := p
      simp only at hp
      subst hp
      subst hv
      exact List.mem_cons_self _ _
    · rw [if_neg hp] at h
      exact List.mem_cons_of_mem _ (ih k v h)

/-- C7: the alias table sends "1w" to "5d", "year" to "1y", "3m" to
"3mo"; and for every input and every possible LLM fallback answer the
returned period lies in the fixed valid set. -/
theorem correct_period_parameter_spec :
    (∀ a, correct_period_parameter "1w" a = "5d") ∧
    (∀ a, correct_period_parameter "year" a = "1y") ∧
    (∀ a, correct_period_parameter "3m" a = "3mo") ∧
    (∀ inp a, correct_period_parameter inp a ∈ valid_periods) := by
  refine ⟨fun a => rfl, fun a => rfl, fun a => rfl, fun inp a => ?_⟩
  have hall : ∀ p ∈ period_mapping, p.2 ∈ valid_periods := by decide
  unfold correct_period_parameter
  split
  next v heq => exact hall _ (lookupKey_mem _ _ _ heq)
  next =>
    split
    next hmem => exact hmem
    next => decide

lemma lookupKey_eq_none_iff {α : Type} :
    ∀ (l : List (String × α)) (k : String),
      lookupKey l k = Option.none ↔ k ∉ l.map Prod.fst := by
  intro l
  induction l with
  | nil => intro k; simp [lookupKey]
  | cons p ps ih =>
    intro k
    unfold lookupKey
    by_cases hp : p.1 = k
    · simp [hp]
    · simp [hp, ih, Ne.symm hp]

lemma lookupKey_append_single {α : Type} (l : List (String × α)) (k : String) (v : α)
    (h : lookupKey l k = Option.none) :
    lookupKey (l ++ [(k, v)]) k = Option.some v := by
  induction l with
  | nil => simp [lookupKey]
  | cons p ps ih =>
    rw [List.cons_append]
    simp only [lookupKey] at h ⊢
    by_cases hp : p.1 = k
    · rw [if_pos hp] at h; cases h
    · rw [if_neg hp] at h ⊢
      exact ih h

lemma get_company_client_keys (r : Registry) (t : String) :
    ((get_company_client r t).2).keys =
      if pyUpper t ∈ r.keys then r.keys else r.keys ++ [pyUpper t] := by
  unfold get_company_client
  cases h : lookupKey r.entries (pyUpper t) with
  | some c =>
    have hm : pyUpper t ∈ r.keys :=
      List.mem_map_of_mem Prod.fst (lookupKey_mem _ _ _ h)
    simp [hm]
  | none =>
    have hm : pyUpper t ∉ r.keys := (lookupKey_eq_none_iff _ _).mp h
    have hm2 : pyUpper t ∉ List.map Prod.fst r.entries := hm
    simp [Registry.keys, hm2]

lemma mem_runRequests_keys :
    ∀ (ts : List String) (r : Registry) (x : String),
      x ∈ (runRequests r ts).keys ↔ x ∈ r.keys ∨ x ∈ ts.map pyUpper := by
  intro ts
  induction ts with
  | nil => intro r x; simp [runRequests]
  | cons t ts ih =>
    intro r x
    rw [runRequests, ih, get_company_client_keys]
    by_cases hm : pyUpper t ∈ r.keys
    · rw [if_pos hm]
      simp only [List.map_cons, List.mem_cons]
      constructor
      · tauto
      · rintro (h | h | h)
        · tauto
        · exact Or.inl (h ▸ hm)
        · tauto
    · rw [if_neg hm]
      simp only [List.mem_append, List.mem_singleton, List.map_cons, List.mem_cons]
      tauto

lemma runRequests_keys_nodup :
    ∀ (ts : List String) (r : Registry), r.keys.Nodup → (runRequests r ts).keys.Nodup := by
  intro ts
  induction ts with
  | nil => intro r h; exact h
  | cons t ts ih =>
    intro r h
    rw [runRequests]
    apply ih
    rw [get_company_client_keys]
    by_cases hm : pyUpper t ∈ r.keys
    · rwa [if_pos hm]
    · rw [if_neg hm]
      rw [List.nodup_append]
      refine ⟨h, List.nodup_singleton _, ?_⟩
      intro x hx hx1
      rw [List.mem_singleton] at hx1
      exact hm (hx1 ▸ hx)

/-- C8: (a) two requests whose tickers uppercase to the same key — such as
"aapl" and "AAPL" — return the identical cached client; (b) no request
ever removes a registry entry; (c) after any request sequence from an
empty registry, the registry size equals the number of distinct
uppercased tickers requested. -/
theorem registry_cache_spec :
    (∀ (r : Registry) (t1 t2 : String), pyUpper t1 = pyUpper t2 →
      (get_company_client (get_company_client r t1).2 t2).1 =
        (get_company_client r t1).1) ∧
    (∀ (r : Registry) (t k : String), k ∈ r.keys →
      k ∈ ((get_company_client r t).2).keys) ∧
    (∀ ts : List String,
      ((runRequests ⟨[]⟩ ts).keys).length = ((ts.map pyUpper).dedup).length) := by
  refine ⟨?_, ?_, ?_⟩
  · intro r t1 t2 hup
    unfold get_company_client
    rw [← hup]
    cases h : lookupKey r.entries (pyUpper t1) with
    | some c => simp [h]
    | none => simp [h, lookupKey_append_single r.entries (pyUpper t1) r.entries.length h]
  · intro r t k hk
    rw [get_company_client_keys]
    split
    · exact hk
    · exact List.mem_append_left _ hk
  · intro ts
    have hnodup : ((runRequests ⟨[]⟩ ts).keys).Nodup :=
      runRequests_keys_nodup ts ⟨[]⟩ (by simp [Registry.keys])
    have hfin : ((runRequests ⟨[]⟩ ts).keys).toFinset = (ts.map pyUpper).toFinset := by
      apply Finset.ext
      intro x
      rw [List.mem_toFinset, List.mem_toFinset, mem_runRequests_keys]
      simp [Registry.keys]
    calc ((runRequests ⟨[]⟩ ts).keys).length
        = ((runRequests ⟨[]⟩ ts).keys).toFinset.card :=
          (List.toFinset_card_of_nodup hnodup).symm
      _ = ((ts.map pyUpper).toFinset).card := by rw [hfin]
      _ = ((ts.map pyUpper).dedup).length := List.card_toFinset _

/-- Witness for C8: from an empty registry, requesting "aapl" then "AAPL"
returns the same client handle both times. -/
theorem registry_cache_spec_witness :
    (get_company_client (get_company_client ⟨[]⟩ "aapl").2 "AAPL").1 =
      (get_company_client (⟨[]⟩ : Registry) "aapl").1 :=
  registry_cache_spec.1 ⟨[]⟩ "aapl" "AAPL" (by decide)

/-- C10: the resolution phase of `extract_stock_mentions` is not total —
when an earlier company's symbol search finds nothing, the record with a
`None` symbol makes the next company's duplicate check call `.upper()` on
`None`, and the function raises instead of returning its result. -/
theorem extract_stock_mentions_not_total :
    ∃ (symbols companies : List String) (search : String → SearchResult),
      2 ≤ companies.length ∧
      (search companies.headI).found = false ∧
      extract_stock_mentions_resolve symbols companies search =
        Except.error "AttributeError: NoneType object has no attribute upper" := by
  refine ⟨[], ["Foocorp", "Barcorp"], fun _ => ⟨false, Option.none, ""⟩,
    by decide, rfl, rfl⟩

lemma filter_human_not_system (l : List Msg) :
    (l.filter (fun m => ! isSystem m)).filter isHuman = l.filter isHuman := by
  rw [List.filter_filter]
  apply List.filter_congr
  intro m _
  cases hm : m.role <;> simp [isHuman, isSystem, hm]

lemma pickWindow_suffix (s b : Nat) : ∀ l : List Msg, pickWindow s b l <:+ l := by
  intro l
  induction l with
  | nil => exact List.suffix_refl _
  | cons m ms ih =>
    unfold pickWindow
    split
    · exact List.suffix_refl _
    · exact ih.trans (List.suffix_cons m ms)

lemma pickWindow_head_human (s b : Nat) (l : List Msg) :
    ∀ (m : Msg) (ms : List Msg), pickWindow s b l = m :: ms → isHuman m = true := by
  induction l with
  | nil => intro m ms h; cases h
  | cons a as ih =>
    intro m ms h
    unfold pickWindow at h
    split at h
    next hc =>
      injection h with h1 _
      subst h1
      exact hc.1
    next => exact ih m ms h

lemma lastHumanSuffix_suffix : ∀ l : List Msg, lastHumanSuffix l <:+ l := by
  intro l
  induction l with
  | nil => exact List.suffix_refl _
  | cons m ms ih =>
    unfold lastHumanSuffix
    split
    · split
      · exact List.suffix_refl _
      · exact List.nil_suffix
    · exact ih.trans (List.suffix_cons m ms)

lemma lastHumanSuffix_head_human (l : List Msg) :
    ∀ (m : Msg) (ms : List Msg), lastHumanSuffix l = m :: ms → isHuman m = true := by
  induction l with
  | nil => intro m ms h; cases h
  | cons a as ih =>
    intro m ms h
    unfold lastHumanSuffix at h
    split at h
    · split at h
      next hh =>
        injection h with h1 _
        subst h1
        exact hh
      next => cases h
    · exact ih m ms h

lemma lastHumanSuffix_ne_nil : ∀ l : List Msg, l.filter isHuman ≠ [] → lastHumanSuffix l ≠ [] := by
  intro l
  induction l with
  | nil => intro h; simp at h
  | cons m ms ih =>
    intro h
    unfold lastHumanSuffix
    cases he : (lastHumanSuffix ms).isEmpty with
    | true =>
      rw [if_pos rfl]
      cases hm : isHuman m with
      | true => simp
      | false =>
        exfalso
        have hms : ms.filter isHuman ≠ [] := by
          rw [List.filter_cons, hm] at h
          simpa using h
        exact ih hms (List.isEmpty_iff.mp he)
    | false =>
      intro heq
      rw [if_neg (by simp)] at heq
      rw [heq] at he
      simp at he

lemma mem_suffix_of_getLast_filter {l suf : List Msg} (hsuf : suf <:+ l)
    (hne : suf.filter isHuman ≠ []) {h : Msg}
    (hlast : (l.filter isHuman).getLast? = Option.some h) : h ∈ suf := by
  obtain ⟨pre, rfl⟩ := hsuf
  rw [List.filter_append, List.getLast?_append_of_ne_nil _ hne] at hlast
  exact List.mem_of_mem_filter (List.mem_of_mem_getLast? (Option.mem_def.mpr hlast))

/-- C9: trimming a history already within the token budget returns it
unchanged; and the output always contains every system message and the
latest human message, whatever the budget — even one smaller than their
combined size. -/
theorem trim_message_history_spec (l : List Msg) (budget : Nat) :
    (totalTokens l ≤ budget → trim_message_history l budget = l) ∧
    (∀ s ∈ l, isSystem s = true → s ∈ trim_message_history l budget) ∧
    (∀ h, lastHuman? l = Option.some h → h ∈ trim_message_history l budget) := by
  unfold trim_message_history trim_messages
  by_cases hb : totalTokens l ≤ budget
  · rw [if_pos hb]
    exact ⟨fun _ => rfl, fun s hs _ => hs, fun h hh =>
      List.mem_of_mem_filter (List.mem_of_mem_getLast? (Option.mem_def.mpr hh))⟩
  · rw [if_neg hb]
    refine ⟨fun hc => absurd hc hb, ?_, ?_⟩
    · intro s hs hsys
      exact List.mem_append_left _ (List.mem_filter.mpr ⟨hs, hsys⟩)
    · intro h hh
      apply List.mem_append_right
      have hfh : (l.filter (fun m => ! isSystem m)).filter isHuman = l.filter isHuman :=
        filter_human_not_system l
      have hlast : ((l.filter (fun m => ! isSystem m)).filter isHuman).getLast? =
          Option.some h := by
        rw [hfh]
        exact hh
      have hne : l.filter isHuman ≠ [] := by
        intro hq
        rw [lastHuman?, hq] at hh
        cases hh
      have hne2 : (l.filter (fun m => ! isSystem m)).filter isHuman ≠ [] := by
        rw [hfh]
        exact hne
      cases hw : pickWindow (totalTokens (l.filter isSystem)) budget
          (l.filter (fun m => ! isSystem m)) with
      | nil =>
        simp only [List.isEmpty_nil, if_true]
        have hlnn : lastHumanSuffix (l.filter (fun m => ! isSystem m)) ≠ [] :=
          lastHumanSuffix_ne_nil _ hne2
        obtain ⟨m, ms, hms⟩ := List.exists_cons_of_ne_nil hlnn
        have hhm := lastHumanSuffix_head_human _ m ms hms
        have hfne : (lastHumanSuffix (l.filter (fun m => ! isSystem m))).filter
            isHuman ≠ [] := by
          rw [hms, List.filter_cons, hhm]
          simp
        exact mem_suffix_of_getLast_filter (lastHumanSuffix_suffix _) hfne hlast
      | cons m ms =>
        simp only [List.isEmpty_cons]
        rw [if_neg (by simp)]
        have hhm := pickWindow_head_human _ _ _ m ms hw
        have hsuffix : (m :: ms) <:+ (l.filter (fun m => ! isSystem m)) :=
          hw ▸ pickWindow_suffix _ _ _
        have hfne : (m :: ms).filter isHuman ≠ [] := by
          rw [List.filter_cons, hhm]
          simp
        simpa using mem_suffix_of_getLast_filter hsuffix hfne hlast

/-- Witness for C9: a within-budget history is returned unchanged, and
with a budget smaller than the system + latest-human sizes the latest
human message is still retained. -/
theorem trim_message_history_spec_witness :
    trim_message_history [⟨Role.system, 0, 1⟩, ⟨Role.human, 0, 1⟩] 10 =
        [⟨Role.system, 0, 1⟩, ⟨Role.human, 0, 1⟩] ∧
      (⟨Role.human, 0, 3⟩ : Msg) ∈
        trim_message_history [⟨Role.system, 0, 5⟩, ⟨Role.human, 0, 3⟩] 2 :=
  ⟨(trim_message_history_spec _ 10).1 (by decide),
    (trim_message_history_spec _ 2).2.2 _ (by decide)⟩

end StockAssistant
